import Mathlib

set_option maxRecDepth 100000

/-!
Verification of the Modbus RTU servo driver (wf_modbus.py, wf_servo.py,
wf_types.py) against its natural-language specification.

Shallow embedding conventions: byte sequences are `List Nat`, machine
integers are `Nat`/`Int` with explicit masking where the Python code masks,
fallible operations return `Except`. Python floats appear only in
`read_encoder_value` and the degrees-to-pulses computation; in the value
ranges reachable there every IEEE-double operation the code performs is
exact (the scale factor 360/16384 = 45/2048 is dyadic, and all products,
remainders and quotients stay below 2^53), so those computations are
modelled with exact rationals.

The wf_servo.py call sites pass a `response_length` keyword to the Modbus
primitives and reference the CRC routine both as `_calculate_modbus_crc`
and as `calculate_modbus_crc`; src/wf_modbus.py has neither the keyword
nor the underscore-free spelling. Spec section 9 identifies this as drift
between driver revisions. Following the spec, the primitives are embedded
from the frame-building code of src/wf_modbus.py (which matches spec
section 4.1 byte for byte), with `response_length` transport-only, and
both CRC spellings denote the one routine of src/wf_modbus.py.
-/

/-- One iteration of the inner bit loop of `Modbus._calculate_modbus_crc`
(src/wf_modbus.py lines 270-287): if the least significant bit of the
running register is set, shift right by one and XOR the reversed Modbus
polynomial 0xA001, otherwise just shift right by one. -/
def crcBit (crc : Nat) : Nat :=
  if crc &&& 0x0001 = 1 then (crc >>> 1) ^^^ 0xA001 else crc >>> 1

/-- One iteration of the outer byte loop of `Modbus._calculate_modbus_crc`
(src/wf_modbus.py lines 256-287): XOR the data byte into the register,
then run the bit loop eight times (`for _ in range(8)`). -/
def crcByte (crc byte : Nat) : Nat :=
  crcBit^[8] (crc ^^^ byte)

/-- The running CRC register after folding a byte list into seed `crc`,
mirroring the `for byte in data` loop of `Modbus._calculate_modbus_crc`. -/
def crcFold (crc : Nat) (data : List Nat) : Nat :=
  data.foldl crcByte crc

/-- The 16-bit CRC register computed by `Modbus._calculate_modbus_crc`
(src/wf_modbus.py lines 251-287): seed 0xFFFF, polynomial 0xA001. -/
def crc16 (data : List Nat) : Nat :=
  crcFold 0xFFFF data

/-- The value returned by `Modbus._calculate_modbus_crc`
(src/wf_modbus.py line 299): the two CRC bytes in little-endian order,
low byte first. -/
def calculate_modbus_crc (data : List Nat) : List Nat :=
  [crc16 data &&& 0xFF, (crc16 data >>> 8) &&& 0xFF]

/-- Modelled from the spec: the frame-validity check of spec sections 3
and 4.1 ("a full received frame (payload + appended CRC) is valid iff
recomputing CRC over the payload reproduces the trailing two bytes").
No single named function in src performs this check; it is the validity
notion the spec attaches to every accepted response frame, and the
expected-frame comparisons of wf_servo.py instantiate it. -/
def frameValid (frame : List Nat) : Bool :=
  decide (2 ≤ frame.length) &&
    (calculate_modbus_crc (frame.take (frame.length - 2)) ==
      frame.drop (frame.length - 2))

/-- Flip a single bit: replace byte `i` of the list by the same byte with
bit `j` inverted (XOR with 2^j). Out-of-range byte indices leave the list
unchanged; the theorems only use in-range indices. -/
def flipBit (l : List Nat) (i j : Nat) : List Nat :=
  l.set i (l.getD i 0 ^^^ (1 <<< j))

/-- Request packet of `Modbus.read_input_registers` (src/wf_modbus.py
lines 94-110): function code 0x04, big-endian starting address and
register quantity, CRC appended little-endian. -/
def read_input_registers_command
    (slave_address starting_address register_quantity : Nat) : List Nat :=
  let packet := [slave_address, 0x04,
    (starting_address >>> 8) &&& 0xFF, starting_address &&& 0xFF,
    (register_quantity >>> 8) &&& 0xFF, register_quantity &&& 0xFF]
  packet ++ calculate_modbus_crc packet

/-- Request packet of `Modbus.write_single_register` (src/wf_modbus.py
lines 142-158): function code 0x06, big-endian register address and
value, CRC appended little-endian. -/
def write_single_register_command
    (slave_address register_address register_value : Nat) : List Nat :=
  let packet := [slave_address, 0x06,
    (register_address >>> 8) &&& 0xFF, register_address &&& 0xFF,
    (register_value >>> 8) &&& 0xFF, register_value &&& 0xFF]
  packet ++ calculate_modbus_crc packet

/-- Request packet of `Modbus.write_multiple_registers` (src/wf_modbus.py
lines 177-195): function code 0x10, big-endian starting address and
register quantity, byte quantity, raw payload, CRC appended. -/
def write_multiple_registers_command
    (slave_address starting_address register_quantity byte_quantity : Nat)
    (payload : List Nat) : List Nat :=
  let packet := [slave_address, 0x10,
    (starting_address >>> 8) &&& 0xFF, starting_address &&& 0xFF,
    (register_quantity >>> 8) &&& 0xFF, register_quantity &&& 0xFF,
    byte_quantity] ++ payload
  packet ++ calculate_modbus_crc packet

/-- Exceptions raised by the driver layer, after the taxonomy of
wf_servo.py: `TypeError` and `ValueError` are validation errors raised
before any I/O; `RuntimeError` wraps a failing primitive call. -/
inductive ServoError where
  | typeError (msg : String)
  | valueError (msg : String)
  | runtimeError (msg : String)
deriving Repr, DecidableEq

/-- Predicate `TypeCheck.is_uint16` (src/wf_types.py line 104) on an
integer argument: in range 0-65535. -/
def is_uint16 (value : Int) : Bool :=
  0 ≤ value && value ≤ 65535

/-- Request frame sent by `Servo42dModbus.calibrate` (src/wf_servo.py
lines 213-219): write single register 0x0080 with value 0x0001. -/
def calibrate_command (slave_address : Nat) : List Nat :=
  write_single_register_command slave_address 0x0080 0x0001

/-- Outcome of `Servo42dModbus.calibrate` (src/wf_servo.py lines 210-232)
as a function of the primitive call's outcome: a failing primitive is
re-raised as RuntimeError; otherwise the result is the boolean echo
comparison `response == command`, with no further exception. -/
def calibrate (slave_address : Nat)
    (primitive : Except ServoError (List Nat)) : Except ServoError Bool :=
  match primitive with
  | .error _ =>
      .error (.runtimeError "exception occurred while attempting calibration")
  | .ok response => .ok (response = calibrate_command slave_address)

/-- Expected response frame of `Servo42dModbus.read_en_pin_status` for
status byte `b` (src/wf_servo.py lines 384-387): the candidate packet
[slave, 0x04, 0x02, 0x00, b] extended with its own CRC. -/
def status_candidate_frame (slave_address b : Nat) : List Nat :=
  [slave_address, 0x04, 0x02, 0x00, b] ++
    calculate_modbus_crc [slave_address, 0x04, 0x02, 0x00, b]

/-- Decision logic of `Servo42dModbus.read_en_pin_status` (src/wf_servo.py
lines 383-399) on the received response: equal to the CRC-suffixed
enabled candidate gives True, equal to the disabled candidate gives
False, anything else raises ValueError. -/
def read_en_pin_status (slave_address : Nat) (response : List Nat) :
    Except ServoError Bool :=
  if response = status_candidate_frame slave_address 0x01 then .ok true
  else if response = status_candidate_frame slave_address 0x00 then .ok false
  else .error (.valueError "failed to read en pin status from servo.")

/-- Decision logic of `Servo42dModbus.read_motor_shaft_protection_status`
(src/wf_servo.py lines 442-458), identical in shape to
`read_en_pin_status`; its CRC call is spelled `Modbus.calculate_modbus_crc`
(the underscore-free revision-drift spelling, bound per the spec to the
codec CRC). -/
def read_motor_shaft_protection_status (slave_address : Nat)
    (response : List Nat) : Except ServoError Bool :=
  if response = status_candidate_frame slave_address 0x01 then .ok true
  else if response = status_candidate_frame slave_address 0x00 then .ok false
  else .error (.valueError "failed to read shaft protection status from servo.")

/-- Request frame sent by `Servo42dModbus.move_at_speed` (src/wf_servo.py
lines 148-161): write multiple registers starting at 0x00F6, 2 registers,
byte quantity 0x04, payload [direction, acceleration, speed-hi, speed-lo]. -/
def move_at_speed_command (slave_address direction acceleration speed : Nat) :
    List Nat :=
  write_multiple_registers_command slave_address 0x00F6 0x0002 0x04
    [direction, acceleration, (speed >>> 8) &&& 0xFF, speed &&& 0xFF]

/-- The `expected_response` computed by `Servo42dModbus.move_at_speed`
(src/wf_servo.py line 169): the bare return value of the CRC routine on
the six header bytes, that is, only the two CRC bytes; the header itself
is not part of the compared value. -/
def move_at_speed_expected_response (slave_address : Nat) : List Nat :=
  calculate_modbus_crc [slave_address, 0x10, 0x00, 0xF6, 0x00, 0x02]

/-- Verification step of `Servo42dModbus.move_at_speed` (src/wf_servo.py
lines 172-177): True iff the response equals `expected_response`. -/
def move_at_speed_result (slave_address : Nat) (response : List Nat) : Bool :=
  response = move_at_speed_expected_response slave_address

/-- `Parse.parse_int48` (src/wf_types.py lines 62-66): assemble six bytes
big-endian and apply the two's-complement correction when bit 47 is set
(Python tests `val & (1 << 47)` for truthiness, that is, nonzero). -/
def parse_int48 (b1 b2 b3 b4 b5 b6 : Nat) : Int :=
  let val := (b1 <<< 40) ||| (b2 <<< 32) ||| (b3 <<< 24) ||| (b4 <<< 16) |||
    (b5 <<< 8) ||| b6
  if val &&& (1 <<< 47) ≠ 0 then (val : Int) - (1 <<< 48) else (val : Int)

/-- Decode step of `Servo42dModbus.read_encoder_value` (src/wf_servo.py
lines 92-106): bytes 3-8 of the response parsed as signed 48-bit
big-endian, total degrees (360/16384) times the count, then Python
`divmod(total_degrees, 360.0)`, which returns the floor quotient and the
remainder `total - 360 * floor(total / 360)`. All double-precision
operations involved are exact for 48-bit counts, so the model uses exact
rationals. Returns (encoder_count, total_degrees, rotations,
remaining_degrees). -/
def read_encoder_value (response : List Nat) : Int × ℚ × Int × ℚ :=
  let encoder_count := parse_int48 (response.getD 3 0) (response.getD 4 0)
    (response.getD 5 0) (response.getD 6 0) (response.getD 7 0)
    (response.getD 8 0)
  let total_degrees : ℚ := (360 / 16384) * (encoder_count : ℚ)
  let rotations : Int := ⌊total_degrees / 360⌋
  let remaining_degrees : ℚ := total_degrees - 360 * (rotations : ℚ)
  (encoder_count, total_degrees, rotations, remaining_degrees)

/-- The client-side configuration cache of `Servo42dModbus` (the
`configuration` dict), restricted to the three keys touched by
`set_step_parameters`; `none` models an absent key. -/
structure Configuration where
  microsteps_per_step : Option Nat := none
  steps_per_revolution : Option Nat := none
  degrees_per_microstep : Option ℚ := none
deriving Repr, DecidableEq

/-- Request frame sent by `Servo42dModbus.set_step_parameters`
(src/wf_servo.py lines 771-777): write single register 0x0084 with the
microsteps value. -/
def set_step_parameters_command (slave_address microsteps : Nat) : List Nat :=
  write_single_register_command slave_address 0x0084 microsteps

/-- Echo check and cache update of `Servo42dModbus.set_step_parameters`
(src/wf_servo.py lines 784-793): on an exact echo of the request the
three cache keys are written (degrees_per_microstep as
360 / (microsteps * steps_per_revolution), exact in double precision for
the reachable values) and True is returned; on any other response the
cache is untouched and False is returned. -/
def set_step_parameters (slave_address microsteps steps_per_revolution : Nat)
    (config : Configuration) (response : List Nat) : Bool × Configuration :=
  if response = set_step_parameters_command slave_address microsteps then
    (true,
      { microsteps_per_step := some microsteps,
        steps_per_revolution := some steps_per_revolution,
        degrees_per_microstep :=
          some (360 / (microsteps * steps_per_revolution : ℚ)) })
  else
    (false, config)

/-- Pulse computation of `Servo42dModbus.relative_move_by_degrees`
(src/wf_servo.py line 1177): `int(degrees / degrees_per_microstep)`,
Python `int()` truncating toward zero; a missing cache key raises
KeyError (modelled as a validation-style error). -/
def relative_move_by_degrees_pulses (degrees : ℚ)
    (degrees_per_microstep : Option ℚ) : Except ServoError Int :=
  match degrees_per_microstep with
  | none => .error (.valueError
      "configuration item degrees_per_microstep not found. run set_step_parameters first.")
  | some dpm =>
      let q := degrees / dpm
      .ok (if 0 ≤ q then ⌊q⌋ else ⌈q⌉)

/-- Validation and request construction of
`Servo42dModbus.set_working_current` (src/wf_servo.py lines 820-840):
the uint16 type check raises TypeError, the 250-3000 range check raises
ValueError, both before any I/O; otherwise the request writes the
literal milliamp value to register 0x0083. -/
def set_working_current_command (slave_address : Nat)
    (working_current_ma : Int) : Except ServoError (List Nat) :=
  if is_uint16 working_current_ma = false then
    .error (.typeError "working_current must be a valid uint_16.")
  else if working_current_ma < 250 ∨ 3000 < working_current_ma then
    .error (.valueError "working_current must be between 250 and 3000 mA.")
  else
    .ok (write_single_register_command slave_address 0x0083
      working_current_ma.toNat)

/-- Request frame sent by `Servo42dModbus.relative_move_by_pulses`
(src/wf_servo.py lines 1226-1248): write multiple registers starting at
0x00FD, 4 registers, byte quantity 0x08, payload [direction,
acceleration, speed-hi, speed-lo, pulses emitted most-significant byte
first across four bytes]. -/
def relative_move_by_pulses_command
    (slave_address direction acceleration speed pulses : Nat) : List Nat :=
  write_multiple_registers_command slave_address 0x00FD 0x0004 0x08
    [direction, acceleration,
     (speed >>> 8) &&& 0xFF, speed &&& 0xFF,
     (pulses >>> (8 * 3)) &&& 0xFF, (pulses >>> (8 * 2)) &&& 0xFF,
     (pulses >>> (8 * 1)) &&& 0xFF, pulses &&& 0xFF]

/-! Helper lemmas about the CRC register: GF(2)-linearity of the bit step,
preservation of the 16-bit bound, and nonvanishing on nonzero inputs. -/

theorem shiftRight_one_xor (x y : Nat) :
    (x ^^^ y) >>> 1 = (x >>> 1) ^^^ (y >>> 1) := by
  apply Nat.eq_of_testBit_eq
  intro i
  simp [Nat.testBit_shiftRight, Nat.testBit_xor]

theorem xor_cancel_pair (a b c : Nat) : (a ^^^ c) ^^^ (b ^^^ c) = a ^^^ b := by
  apply Nat.eq_of_testBit_eq
  intro i
  simp only [Nat.testBit_xor]
  cases a.testBit i <;> cases b.testBit i <;> cases c.testBit i <;> rfl

theorem xor_ne_self_of_ne_zero (x e : Nat) (he : e ≠ 0) : x ^^^ e ≠ x := by
  intro h
  apply he
  have h2 : x ^^^ (x ^^^ e) = x ^^^ x := congrArg (x ^^^ ·) h
  rwa [← Nat.xor_assoc, Nat.xor_self, Nat.zero_xor] at h2

theorem xor_right_swap (a b c : Nat) : (a ^^^ b) ^^^ c = (a ^^^ c) ^^^ b := by
  rw [Nat.xor_assoc, Nat.xor_comm b c, ← Nat.xor_assoc]

theorem crcBit_xor (x y : Nat) : crcBit (x ^^^ y) = crcBit x ^^^ crcBit y := by
  have hxy : (x ^^^ y) % 2 = x % 2 ^^^ y % 2 := by
    have h := @Nat.and_xor_distrib_right x y 1
    rwa [Nat.and_one_is_mod, Nat.and_one_is_mod, Nat.and_one_is_mod] at h
  unfold crcBit
  rw [Nat.and_one_is_mod, Nat.and_one_is_mod, Nat.and_one_is_mod, hxy]
  rcases Nat.mod_two_eq_zero_or_one x with hx0 | hx0 <;>
    rcases Nat.mod_two_eq_zero_or_one y with hy0 | hy0 <;>
    rw [hx0, hy0] <;>
    norm_num <;>
    (apply Nat.eq_of_testBit_eq
     intro i
     simp only [Nat.testBit_xor, Nat.testBit_shiftRight]
     all_goals
       cases x.testBit (1 + i) <;> cases y.testBit (1 + i) <;>
         cases (40961 : Nat).testBit i <;> rfl)

theorem crcBitN_xor (n x y : Nat) :
    crcBit^[n] (x ^^^ y) = crcBit^[n] x ^^^ crcBit^[n] y := by
  induction n generalizing x y with
  | zero => rfl
  | succ k ih =>
      rw [Function.iterate_succ_apply, Function.iterate_succ_apply,
        Function.iterate_succ_apply, crcBit_xor, ih]

theorem xor_lt_65536 (a b : Nat) (ha : a < 65536) (hb : b < 65536) :
    a ^^^ b < 65536 := by
  have h : ∀ z : Nat, z < 65536 ↔ z < 2 ^ 16 := by intro z; norm_num
  rw [h] at ha hb ⊢
  exact Nat.xor_lt_two_pow ha hb

theorem shiftRight_one_eq_div (x : Nat) : x >>> 1 = x / 2 := by
  rw [Nat.shiftRight_eq_div_pow, pow_one]

theorem crcBit_lt (x : Nat) (h : x < 65536) : crcBit x < 65536 := by
  unfold crcBit
  split
  · exact xor_lt_65536 _ _ (by rw [shiftRight_one_eq_div]; omega) (by norm_num)
  · rw [shiftRight_one_eq_div]; omega

theorem crcBitN_lt (n : Nat) : ∀ x, x < 65536 → crcBit^[n] x < 65536 := by
  induction n with
  | zero => intro x h; exact h
  | succ k ih =>
      intro x h
      rw [Function.iterate_succ_apply]
      exact ih _ (crcBit_lt x h)

theorem crcBit_ne_zero (x : Nat) (h : x < 65536) (hx : x ≠ 0) : crcBit x ≠ 0 := by
  unfold crcBit
  split
  · intro h0
    have h1 : x >>> 1 = 0xA001 := Nat.xor_eq_zero.mp h0
    rw [shiftRight_one_eq_div] at h1
    omega
  · rename_i hcond
    rw [Nat.and_one_is_mod] at hcond
    rw [shiftRight_one_eq_div]
    omega

theorem crcBitN_ne_zero (n : Nat) :
    ∀ x, x < 65536 → x ≠ 0 → crcBit^[n] x ≠ 0 := by
  induction n with
  | zero => intro x _ hx; exact hx
  | succ k ih =>
      intro x h hx
      rw [Function.iterate_succ_apply]
      exact ih _ (crcBit_lt x h) (crcBit_ne_zero x h hx)

theorem crcByte_lt (c b : Nat) (hc : c < 65536) (hb : b < 65536) :
    crcByte c b < 65536 :=
  crcBitN_lt 8 _ (xor_lt_65536 c b hc hb)

theorem crcByte_xor_err (c b e : Nat) :
    crcByte (c ^^^ e) b = crcByte c b ^^^ crcBit^[8] e := by
  have hb : (c ^^^ e) ^^^ b = (c ^^^ b) ^^^ e := by
    rw [Nat.xor_assoc, Nat.xor_comm e b, ← Nat.xor_assoc]
  simp only [crcByte]
  rw [hb, crcBitN_xor]

theorem crcFold_lt (l : List Nat) :
    ∀ c, c < 65536 → (∀ a ∈ l, a < 65536) → crcFold c l < 65536 := by
  induction l with
  | nil => intro c hc _; exact hc
  | cons b t ih =>
      intro c hc hl
      show crcFold (crcByte c b) t < 65536
      exact ih _ (crcByte_lt c b hc (hl b (List.mem_cons_self b t)))
        (fun a ha => hl a (List.mem_cons_of_mem _ ha))

theorem crcFold_xor (l : List Nat) : ∀ c e : Nat,
    crcFold (c ^^^ e) l = crcFold c l ^^^ crcBit^[8 * l.length] e := by
  induction l with
  | nil => intro c e; simp [crcFold]
  | cons b t ih =>
      intro c e
      calc crcFold (c ^^^ e) (b :: t)
          = crcFold (crcByte (c ^^^ e) b) t := rfl
        _ = crcFold (crcByte c b ^^^ crcBit^[8] e) t := by
              rw [crcByte_xor_err]
        _ = crcFold (crcByte c b) t ^^^ crcBit^[8 * t.length] (crcBit^[8] e) :=
              ih _ _
        _ = crcFold (crcByte c b) t ^^^ crcBit^[8 * t.length + 8] e := by
              rw [← Function.iterate_add_apply]
        _ = crcFold c (b :: t) ^^^ crcBit^[8 * t.length + 8] e := rfl
        _ = crcFold c (b :: t) ^^^ crcBit^[8 * (b :: t).length] e := by
              have hlen : 8 * (b :: t).length = 8 * t.length + 8 := by
                simp [List.length_cons]; ring
              rw [hlen]

theorem crcFold_set_ne (l : List Nat) : ∀ (c i j : Nat), i < l.length → j < 8 →
    c < 65536 → (∀ a ∈ l, a < 65536) →
    crcFold c (l.set i (l.getD i 0 ^^^ (1 <<< j))) ≠ crcFold c l := by
  induction l with
  | nil => intro c i j hi _ _ _; simp at hi
  | cons x t ih =>
      intro c i j hi hj hc hl
      have hee : (1 <<< j) ≠ 0 := by
        rw [Nat.one_shiftLeft]
        positivity
      have heelt : (1 <<< j) < 65536 := by
        rw [Nat.one_shiftLeft]
        calc 2 ^ j < 2 ^ 8 := Nat.pow_lt_pow_right (by norm_num) hj
          _ < 65536 := by norm_num
      match i with
      | 0 =>
          simp only [List.getD_cons_zero, List.set_cons_zero]
          have hstep :
              crcFold c ((x ^^^ (1 <<< j)) :: t)
                = crcFold c (x :: t) ^^^ crcBit^[8 * t.length + 8] (1 <<< j) := by
            calc crcFold c ((x ^^^ (1 <<< j)) :: t)
                = crcFold (crcByte c (x ^^^ (1 <<< j))) t := rfl
              _ = crcFold (crcByte c x ^^^ crcBit^[8] (1 <<< j)) t := by
                    have hcx : c ^^^ (x ^^^ (1 <<< j)) = (c ^^^ x) ^^^ (1 <<< j) :=
                      (Nat.xor_assoc c x (1 <<< j)).symm
                    simp only [crcByte]
                    rw [hcx, crcBitN_xor]
              _ = crcFold (crcByte c x) t ^^^
                    crcBit^[8 * t.length] (crcBit^[8] (1 <<< j)) :=
                    crcFold_xor t _ _
              _ = crcFold (crcByte c x) t ^^^ crcBit^[8 * t.length + 8] (1 <<< j) := by
                    rw [← Function.iterate_add_apply]
              _ = crcFold c (x :: t) ^^^ crcBit^[8 * t.length + 8] (1 <<< j) := rfl
          rw [hstep]
          have hdelta : crcBit^[8 * t.length + 8] (1 <<< j) ≠ 0 :=
            crcBitN_ne_zero _ _ heelt hee
          exact xor_ne_self_of_ne_zero _ _ hdelta
      | k + 1 =>
          simp only [List.getD_cons_succ, List.set_cons_succ]
          show crcFold (crcByte c x) (t.set k (t.getD k 0 ^^^ (1 <<< j))) ≠
            crcFold (crcByte c x) t
          exact ih (crcByte c x) k j (by simpa using hi) hj
            (crcByte_lt c x hc (hl x (List.mem_cons_self x t)))
            (fun a ha => hl a (List.mem_cons_of_mem _ ha))

theorem and_255_eq_mod (x : Nat) : x &&& 0xFF = x % 256 := by
  have h : (0xFF : Nat) = 2 ^ 8 - 1 := by norm_num
  rw [h, Nat.and_pow_two_sub_one_eq_mod]

theorem shiftRight_eight_eq_div (x : Nat) : x >>> 8 = x / 256 := by
  rw [Nat.shiftRight_eq_div_pow]

theorem calculate_modbus_crc_inj (u v : List Nat)
    (hu : crc16 u < 65536) (hv : crc16 v < 65536)
    (hne : crc16 u ≠ crc16 v) :
    calculate_modbus_crc u ≠ calculate_modbus_crc v := by
  intro h
  apply hne
  simp only [calculate_modbus_crc, List.cons.injEq, and_true] at h
  obtain ⟨h1, h2⟩ := h
  rw [and_255_eq_mod, and_255_eq_mod] at h1 h2
  rw [shiftRight_eight_eq_div, shiftRight_eight_eq_div] at h2
  omega

theorem frameValid_of_parts (data trailer : List Nat)
    (h : trailer.length = 2) :
    frameValid (data ++ trailer) = (calculate_modbus_crc data == trailer) := by
  unfold frameValid
  have hlen : (data ++ trailer).length = data.length + 2 := by simp [h]
  rw [hlen]
  have hn : data.length + 2 - 2 = data.length := by omega
  rw [hn, List.take_left' rfl, List.drop_left' rfl]
  simp

theorem xor_lt_256 (a b : Nat) (ha : a < 256) (hb : b < 256) :
    a ^^^ b < 256 := by
  have h : ∀ z : Nat, z < 256 ↔ z < 2 ^ 8 := by intro z; norm_num
  rw [h] at ha hb ⊢
  exact Nat.xor_lt_two_pow ha hb

theorem getD_mem_of_lt (b : List Nat) (i : Nat) (h : i < b.length) :
    b.getD i 0 ∈ b := by
  rw [List.getD_eq_getElem?_getD, List.getElem?_eq_getElem h]
  simp only [Option.getD_some]
  exact List.getElem_mem h

/-- Claim C1: for every byte sequence, appending the two little-endian CRC
bytes produced by `_calculate_modbus_crc` yields a frame that passes the
frame-validity check, and flipping any single bit anywhere in such a
CRC-appended frame (data region or CRC trailer) makes the check fail. -/
theorem crc_roundtrip_and_single_bit_error_detection (b : List Nat)
    (hb : ∀ a ∈ b, a < 256) :
    frameValid (b ++ calculate_modbus_crc b) = true ∧
    ∀ i j, i < b.length + 2 → j < 8 →
      frameValid (flipBit (b ++ calculate_modbus_crc b) i j) = false := by
  constructor
  · rw [frameValid_of_parts b _ (by rfl)]
    exact beq_self_eq_true _
  · intro i j hi hj
    have hee0 : (1 <<< j) ≠ 0 := by
      rw [Nat.one_shiftLeft]
      positivity
    have hee256 : (1 <<< j) < 256 := by
      rw [Nat.one_shiftLeft]
      calc 2 ^ j < 2 ^ 8 := Nat.pow_lt_pow_right (by norm_num) hj
        _ ≤ 256 := by norm_num
    by_cases hdata : i < b.length
    · have hset : flipBit (b ++ calculate_modbus_crc b) i j
          = b.set i (b.getD i 0 ^^^ (1 <<< j)) ++ calculate_modbus_crc b := by
        unfold flipBit
        rw [List.getD_append _ _ _ _ hdata, List.set_append_left _ _ hdata]
      rw [hset, frameValid_of_parts _ _ (by rfl)]
      apply beq_eq_false_iff_ne.mpr
      have hbyte : b.getD i 0 ^^^ (1 <<< j) < 256 :=
        xor_lt_256 _ _ (hb _ (getD_mem_of_lt b i hdata)) hee256
      have hmem65536 : ∀ a ∈ b.set i (b.getD i 0 ^^^ (1 <<< j)), a < 65536 := by
        intro a ha
        rcases List.mem_or_eq_of_mem_set ha with h1 | h1
        · exact lt_trans (hb a h1) (by norm_num)
        · subst h1
          exact lt_trans hbyte (by norm_num)
      apply calculate_modbus_crc_inj
      · exact crcFold_lt _ _ (by norm_num) hmem65536
      · apply crcFold_lt _ _ (by norm_num)
        intro a ha
        exact lt_trans (hb a ha) (by norm_num)
      · exact crcFold_set_ne b 0xFFFF i j hdata hj (by norm_num)
          (fun a ha => lt_trans (hb a ha) (by norm_num))
    · have hcases : i = b.length ∨ i = b.length + 1 := by omega
      rcases hcases with heq | heq <;> subst heq
      · have hflip : flipBit (b ++ calculate_modbus_crc b) b.length j
            = b ++ [(crc16 b &&& 0xFF) ^^^ (1 <<< j), (crc16 b >>> 8) &&& 0xFF] := by
          unfold flipBit
          rw [List.getD_append_right _ _ _ _ (Nat.le_refl _),
            List.set_append_right _ _ (Nat.le_refl _), Nat.sub_self]
          rfl
        rw [hflip, frameValid_of_parts _ _ (by rfl)]
        apply beq_eq_false_iff_ne.mpr
        intro hlist
        have hheads : crc16 b &&& 0xFF = (crc16 b &&& 0xFF) ^^^ (1 <<< j) := by
          have h := hlist
          simp only [calculate_modbus_crc, List.cons.injEq] at h
          exact h.1
        exact xor_ne_self_of_ne_zero _ _ hee0 hheads.symm
      · have hflip : flipBit (b ++ calculate_modbus_crc b) (b.length + 1) j
            = b ++ [crc16 b &&& 0xFF, ((crc16 b >>> 8) &&& 0xFF) ^^^ (1 <<< j)] := by
          unfold flipBit
          rw [List.getD_append_right _ _ _ _ (Nat.le_succ _),
            List.set_append_right _ _ (Nat.le_succ _)]
          have h1 : b.length.succ - b.length = 1 := by omega
          rw [h1]
          rfl
        rw [hflip, frameValid_of_parts _ _ (by rfl)]
        apply beq_eq_false_iff_ne.mpr
        intro hlist
        have hsnd : (crc16 b >>> 8) &&& 0xFF
            = ((crc16 b >>> 8) &&& 0xFF) ^^^ (1 <<< j) := by
          have h := hlist
          simp only [calculate_modbus_crc, List.cons.injEq] at h
          exact h.2.1
        exact xor_ne_self_of_ne_zero _ _ hee0 hsnd.symm

/-- Claim C1, witness: the round-trip and bit-flip properties applied to the
concrete byte sequence [0x01, 0x03, 0x00, 0x00, 0x00, 0x02]. -/
theorem crc_roundtrip_witness :
    (∀ a ∈ [0x01, 0x03, 0x00, 0x00, 0x00, 0x02], a < 256) ∧
    frameValid ([0x01, 0x03, 0x00, 0x00, 0x00, 0x02] ++
      calculate_modbus_crc [0x01, 0x03, 0x00, 0x00, 0x00, 0x02]) = true :=
  ⟨by decide,
    (crc_roundtrip_and_single_bit_error_detection
      [0x01, 0x03, 0x00, 0x00, 0x00, 0x02] (by decide)).1⟩

/-- Claim C2: the CRC-16 computed by `_calculate_modbus_crc` over
[0x01, 0x03, 0x00, 0x00, 0x00, 0x02]. The register value is 0x0BC4 and the
little-endian byte pair is [0xC4, 0x0B] (the classic Modbus example frame
01 03 00 00 00 02 C4 0B), not the spec's 0xC5CB. -/
theorem crc16_known_vector_value :
    crc16 [0x01, 0x03, 0x00, 0x00, 0x00, 0x02] = 0x0BC4 ∧
    calculate_modbus_crc [0x01, 0x03, 0x00, 0x00, 0x00, 0x02] = [0xC4, 0x0B] := by
  constructor <;> decide

/-- Claim C2, counterexample: the CRC of the test vector is not 0xC5CB and
its little-endian byte pair is not [0xCB, 0xC5] as the claim states. -/
theorem crc16_known_vector_not_C5CB :
    crc16 [0x01, 0x03, 0x00, 0x00, 0x00, 0x02] ≠ 0xC5CB ∧
    calculate_modbus_crc [0x01, 0x03, 0x00, 0x00, 0x00, 0x02] ≠ [0xCB, 0xC5] := by
  constructor <;> decide

theorem floor_remainder_bounds (t : ℚ) :
    0 ≤ t - 360 * (⌊t / 360⌋ : ℚ) ∧ t - 360 * (⌊t / 360⌋ : ℚ) < 360 := by
  have h360 : (360 : ℚ) * (t / 360) = t := by field_simp
  have h1 : (⌊t / 360⌋ : ℚ) ≤ t / 360 := Int.floor_le _
  have h2 : t / 360 < (⌊t / 360⌋ : ℚ) + 1 := Int.lt_floor_add_one _
  constructor
  · nlinarith
  · nlinarith

/-- Claim C3, code evaluation at the failing input: `move_at_speed`
compares the response against only the two CRC bytes of the header frame
(its `expected_response` is the bare CRC routine result), so the correct
CRC-suffixed 8-byte frame [0x01, 0x10, 0x00, 0xF6, 0x00, 0x02, 0xA1, 0xFA]
is rejected and the method returns False, contradicting the claim that it
returns True exactly on that frame. -/
theorem move_at_speed_rejects_correct_frame :
    move_at_speed_expected_response 1 = [0xA1, 0xFA] ∧
    move_at_speed_result 1 ([1, 0x10, 0x00, 0xF6, 0x00, 0x02] ++
      calculate_modbus_crc [1, 0x10, 0x00, 0xF6, 0x00, 0x02]) = false := by
  constructor <;> decide

/-- Claim C4, counterexample: the response whose six data bytes are all
0xFF decodes to encoder count -1 (negative), yet the returned
remaining_degrees is 737235/2048, strictly positive — the claim's
assertion that remaining_degrees is non-positive for negative counts is
false, because Python divmod gives a remainder with the sign of the
divisor. -/
theorem read_encoder_value_negative_count_positive_remainder :
    read_encoder_value [0, 0, 0, 0xFF, 0xFF, 0xFF, 0xFF, 0xFF, 0xFF]
      = (-1, -(45 / 2048 : ℚ), -1, (737235 / 2048 : ℚ)) ∧
    (0 : ℚ) < 737235 / 2048 := by
  constructor
  · have hc : parse_int48 255 255 255 255 255 255 = -1 := by decide
    simp only [read_encoder_value, List.getD_cons_succ, List.getD_cons_zero,
      hc, Prod.mk.injEq]
    have hf : ⌊(360 / 16384 : ℚ) * ((-1 : Int) : ℚ) / 360⌋ = -1 := by
      rw [Int.floor_eq_iff]
      constructor <;> push_cast <;> norm_num
    refine ⟨by trivial, ?_, ?_, ?_⟩
    · push_cast
      norm_num
    · exact hf
    · rw [hf]
      push_cast
      norm_num
  · norm_num

/-- Claim C4 (amended): `read_encoder_value` decodes bytes 3-8 of the
response as a signed 48-bit big-endian count, total degrees is
count*360/16384, rotations is the floor of total/360, and
remaining_degrees satisfies total = 360*rotations + remaining with
0 ≤ remaining < 360 — the remainder's sign follows the positive divisor
(floor-division convention), so a negative count yields a non-negative,
not non-positive, remainder; the signed decode maps the two test vectors
to +1 and -1. -/
theorem read_encoder_value_floor_division (response : List Nat) :
    (read_encoder_value response).1 = parse_int48 (response.getD 3 0)
      (response.getD 4 0) (response.getD 5 0) (response.getD 6 0)
      (response.getD 7 0) (response.getD 8 0) ∧
    (read_encoder_value response).2.1
      = (360 / 16384 : ℚ) * ((read_encoder_value response).1 : ℚ) ∧
    (read_encoder_value response).2.2.1
      = ⌊(read_encoder_value response).2.1 / 360⌋ ∧
    (read_encoder_value response).2.1
      = 360 * ((read_encoder_value response).2.2.1 : ℚ) +
        (read_encoder_value response).2.2.2 ∧
    0 ≤ (read_encoder_value response).2.2.2 ∧
    (read_encoder_value response).2.2.2 < 360 ∧
    parse_int48 0 0 0 0 0 1 = 1 ∧
    parse_int48 0xFF 0xFF 0xFF 0xFF 0xFF 0xFF = -1 := by
  have hb := floor_remainder_bounds ((360 / 16384 : ℚ) *
    ((parse_int48 (response.getD 3 0) (response.getD 4 0) (response.getD 5 0)
      (response.getD 6 0) (response.getD 7 0) (response.getD 8 0)) : ℚ))
  simp only [read_encoder_value]
  exact ⟨by trivial, by trivial, by trivial, by ring, hb.1, hb.2, by decide,
    by decide⟩

/-- Claim C5: for the echo-style setter `calibrate`, an exact echo of the
request yields True, an empty response or any response different from the
request yields False with no exception, and an error is produced only
when the underlying primitive call itself fails (re-raised as
RuntimeError). -/
theorem calibrate_echo_semantics (slave : Nat) :
    calibrate slave (.ok (calibrate_command slave)) = .ok true ∧
    (∀ response, response ≠ calibrate_command slave →
      calibrate slave (.ok response) = .ok false) ∧
    calibrate slave (.ok []) = .ok false ∧
    (∀ e, calibrate slave (.error e)
      = .error (.runtimeError
          "exception occurred while attempting calibration")) := by
  refine ⟨?_, ?_, ?_, fun e => rfl⟩
  · simp [calibrate]
  · intro r hr
    simp [calibrate, hr]
  · simp [calibrate, calibrate_command, write_single_register_command,
      calculate_modbus_crc]

/-- Claim C5, witness: the theorem applied at slave address 1 with the
empty response discharging the mismatch hypothesis. -/
theorem calibrate_echo_witness :
    ([] : List Nat) ≠ calibrate_command 1 ∧
    calibrate 1 (.ok []) = .ok false :=
  ⟨by decide, (calibrate_echo_semantics 1).2.1 [] (by decide)⟩

/-- Claim C6: the status reads are three-valued by frame equality — the
CRC-suffixed candidate with status byte 0x01 yields True, the candidate
with 0x00 yields False, and every other response (the empty one included)
raises a ValueError decode error instead of returning a boolean; this
holds for both read_en_pin_status and
read_motor_shaft_protection_status. -/
theorem status_reads_three_valued (slave : Nat) :
    read_en_pin_status slave (status_candidate_frame slave 0x01) = .ok true ∧
    read_en_pin_status slave (status_candidate_frame slave 0x00) = .ok false ∧
    (∀ response, response ≠ status_candidate_frame slave 0x01 →
      response ≠ status_candidate_frame slave 0x00 →
      read_en_pin_status slave response
        = .error (.valueError "failed to read en pin status from servo.")) ∧
    read_motor_shaft_protection_status slave
      (status_candidate_frame slave 0x01) = .ok true ∧
    read_motor_shaft_protection_status slave
      (status_candidate_frame slave 0x00) = .ok false ∧
    (∀ response, response ≠ status_candidate_frame slave 0x01 →
      response ≠ status_candidate_frame slave 0x00 →
      read_motor_shaft_protection_status slave response
        = .error (.valueError
            "failed to read shaft protection status from servo.")) := by
  have hne : status_candidate_frame slave 0x00 ≠
      status_candidate_frame slave 0x01 := by
    simp [status_candidate_frame, calculate_modbus_crc]
  refine ⟨?_, ?_, ?_, ?_, ?_, ?_⟩
  · simp [read_en_pin_status]
  · simp [read_en_pin_status, hne]
  · intro r h1 h0
    simp [read_en_pin_status, h1, h0]
  · simp [read_motor_shaft_protection_status]
  · simp [read_motor_shaft_protection_status, hne]
  · intro r h1 h0
    simp [read_motor_shaft_protection_status, h1, h0]

/-- Claim C6, witness: the theorem applied at slave address 1, with the
empty response discharging both mismatch hypotheses of the decode-error
branches. -/
theorem status_reads_witness :
    ([] : List Nat) ≠ status_candidate_frame 1 0x01 ∧
    ([] : List Nat) ≠ status_candidate_frame 1 0x00 ∧
    read_en_pin_status 1 []
      = .error (.valueError "failed to read en pin status from servo.") ∧
    read_motor_shaft_protection_status 1 []
      = .error (.valueError
          "failed to read shaft protection status from servo.") :=
  ⟨by decide, by decide,
    (status_reads_three_valued 1).2.2.1 [] (by decide) (by decide),
    (status_reads_three_valued 1).2.2.2.2.2 [] (by decide) (by decide)⟩

/-- Claim C7: after a successful set_step_parameters with microsteps 16
and steps_per_revolution 200 (its request exactly echoed), the cached
degrees_per_microstep is 360/3200 = 0.1125, satisfying the invariant
360 / (microsteps * steps_per_revolution), and the
relative_move_by_degrees pulse computation for 90.0 degrees truncates
90 / 0.1125 toward zero to exactly 800 pulses. -/
theorem set_step_parameters_degrees_derivation (slave : Nat)
    (config : Configuration) (response : List Nat)
    (h : response = set_step_parameters_command slave 16) :
    (set_step_parameters slave 16 200 config response).1 = true ∧
    (set_step_parameters slave 16 200 config response).2.degrees_per_microstep
      = some (360 / 3200 : ℚ) ∧
    (360 / 3200 : ℚ) = 0.1125 ∧
    (360 / 3200 : ℚ) = 360 / ((16 : ℚ) * 200) ∧
    relative_move_by_degrees_pulses 90 (some (360 / 3200 : ℚ)) = .ok 800 := by
  subst h
  refine ⟨?_, ?_, by norm_num, by norm_num, ?_⟩
  · simp [set_step_parameters]
  · simp [set_step_parameters]
    norm_num
  · simp only [relative_move_by_degrees_pulses]
    have hq : (90 : ℚ) / (360 / 3200) = 800 := by norm_num
    rw [hq]
    norm_num

/-- Claim C7, witness: the theorem applied at slave address 1, the empty
cache, and the exact echo response. -/
theorem set_step_parameters_degrees_witness :
    (set_step_parameters 1 16 200 ⟨none, none, none⟩
      (set_step_parameters_command 1 16)).1 = true ∧
    (set_step_parameters 1 16 200 ⟨none, none, none⟩
      (set_step_parameters_command 1 16)).2.degrees_per_microstep
      = some (360 / 3200 : ℚ) :=
  ⟨(set_step_parameters_degrees_derivation 1 ⟨none, none, none⟩ _ rfl).1,
   (set_step_parameters_degrees_derivation 1 ⟨none, none, none⟩ _ rfl).2.1⟩

/-- Claim C8: the relative_move_by_pulses request for direction CW(0),
acceleration 100, speed 1000, pulses 50000 is the write-multiple frame
with starting address 0x00FD, 4 registers, byte quantity 8, whose eight
payload bytes are exactly [0x00, 0x64, 0x03, 0xE8, 0x00, 0x00, 0xC3,
0x50], the four pulse bytes most-significant first, CRC appended. -/
theorem relative_move_by_pulses_frame_shape (slave : Nat) :
    relative_move_by_pulses_command slave 0x00 100 1000 50000
      = [slave, 0x10, 0x00, 0xFD, 0x00, 0x04, 0x08,
          0x00, 0x64, 0x03, 0xE8, 0x00, 0x00, 0xC3, 0x50] ++
        calculate_modbus_crc [slave, 0x10, 0x00, 0xFD, 0x00, 0x04, 0x08,
          0x00, 0x64, 0x03, 0xE8, 0x00, 0x00, 0xC3, 0x50] := by
  simp [relative_move_by_pulses_command, write_multiple_registers_command,
    Nat.shiftRight_eq_div_pow, and_255_eq_mod]

/-- Claim C9: set_working_current rejects every integer outside 250-3000
with a validation error raised before any I/O (TypeError from the uint16
shape check or ValueError from the range check), and accepts values in
250-3000, producing the single-register write frame for register 0x0083
carrying the literal milliamp value. -/
theorem set_working_current_range_validation (slave : Nat) (ma : Int) :
    ((ma < 250 ∨ 3000 < ma) →
      ∃ e, set_working_current_command slave ma = .error e) ∧
    (250 ≤ ma → ma ≤ 3000 →
      set_working_current_command slave ma
        = .ok ([slave, 0x06, 0x00, 0x83,
            (ma.toNat >>> 8) &&& 0xFF, ma.toNat &&& 0xFF] ++
          calculate_modbus_crc [slave, 0x06, 0x00, 0x83,
            (ma.toNat >>> 8) &&& 0xFF, ma.toNat &&& 0xFF])) := by
  constructor
  · intro hrange
    unfold set_working_current_command
    by_cases hu : is_uint16 ma = false
    · rw [if_pos hu]
      exact ⟨_, rfl⟩
    · rw [if_neg hu, if_pos hrange]
      exact ⟨_, rfl⟩
  · intro h1 h2
    have hu : is_uint16 ma = true := by
      simp only [is_uint16, Bool.and_eq_true, decide_eq_true_eq]
      omega
    unfold set_working_current_command
    rw [if_neg (by simp [hu]), if_neg (by omega)]
    unfold write_single_register_command
    norm_num [Nat.shiftRight_eq_div_pow, and_255_eq_mod]

/-- Claim C9, witness: the theorem applied at slave address 1 to the
boundary inputs 249 (rejected) and 250 (accepted). -/
theorem set_working_current_range_witness :
    (∃ e, set_working_current_command 1 249 = .error e) ∧
    set_working_current_command 1 250
      = .ok ([1, 0x06, 0x00, 0x83,
          ((250 : Int).toNat >>> 8) &&& 0xFF, (250 : Int).toNat &&& 0xFF] ++
        calculate_modbus_crc [1, 0x06, 0x00, 0x83,
          ((250 : Int).toNat >>> 8) &&& 0xFF, (250 : Int).toNat &&& 0xFF]) :=
  ⟨(set_working_current_range_validation 1 249).1 (by norm_num),
   (set_working_current_range_validation 1 250).2 (by norm_num) (by norm_num)⟩

/-- Claim C10: whenever set_step_parameters does not receive an exact
echo of its request, it returns False and leaves the configuration cache
exactly as it was — no key is added or modified; the cache is mutated
only on the echo-match path. -/
theorem set_step_parameters_cache_untouched_on_failure
    (slave microsteps steps_per_revolution : Nat) (config : Configuration)
    (response : List Nat)
    (h : response ≠ set_step_parameters_command slave microsteps) :
    set_step_parameters slave microsteps steps_per_revolution config response
      = (false, config) := by
  simp [set_step_parameters, h]

/-- Claim C10, witness: the theorem applied at slave address 1 with a
populated cache and the empty response, which is not the echo. -/
theorem set_step_parameters_cache_witness :
    ([] : List Nat) ≠ set_step_parameters_command 1 16 ∧
    set_step_parameters 1 16 200 ⟨some 8, some 100, some (1 / 2 : ℚ)⟩ []
      = (false, ⟨some 8, some 100, some (1 / 2 : ℚ)⟩) :=
  ⟨by decide,
    set_step_parameters_cache_untouched_on_failure 1 16 200
      ⟨some 8, some 100, some (1 / 2 : ℚ)⟩ [] (by decide)⟩
